import Mathlib

/-
Verification development for the utl serialization core
(src/include/utl/serialization/serialization.h), the field-enumeration
helper (src/include/utl/struct/for_each_member.h) and the zip adapter
(src/include/utl/zip.h).

Modelling conventions (shallow embedding):
* Memory is modelled at the granularity of abstract cells: every scalar
  slot of an object (a scalar leaf, a pointer slot, a size slot, a flag
  slot) occupies exactly one cell, so `sizeof` becomes a cell count and
  `offsetof` a cell index.  Alignment padding is not modelled (the byte
  target is an external collaborator; none of the claims concern
  padding).
* `offset_t` values are modelled as `Nat`; the null sentinel
  `std::numeric_limits<offset_t>::max()` is the constant `sentinelV`.
* Pointee identity (`void*` keys of the `offsets_` map) is a `Nat`
  address.  The object graph that an encode call reads through raw
  pointers is a heap: an association list from addresses to values.
* C++ types are a universe `Ty`.  Mutually recursive struct types (only
  expressible behind pointers in C++) are closed through a type table
  `env : List Ty`: `Ty.uptr tid` / `Ty.vec tid` name their pointee /
  element type by index into the table.
* The recursion of `serialize` / `deserialize` is fuel-indexed; fuel is
  decremented on every recursive call, so "the C++ recursion does not
  terminate" corresponds to "the model returns `.error .fuelOut` for
  every fuel".
-/

namespace UtlSer

/-- Model of `std::numeric_limits<offset_t>::max()` from
`utl/serialization/offset_t.h` (64-bit offsets): the offset value
reserved as the null sentinel. -/
def sentinelV : Nat := 2 ^ 64 - 1

/-- Abstract content of one memory/buffer cell.  The constructors record
what the byte pattern in the slot means: a scalar leaf, raw in-process
pointer bytes (`addr`), a patched relative offset (`off`), the written
sentinel value, a bool flag, a size/count, a character of a string
payload, the inline bytes of a short string (`inl`), unmodelled raw
pointer bytes that are always overwritten before being read (`raw`),
and an absolute pointer produced by decode rebasing (`abs`). -/
inductive Cell where
  | sc (n : Int)
  | addr (a : Option Nat)
  | off (o : Nat)
  | sentinel
  | flag (b : Bool)
  | num (n : Nat)
  | chr (c : Char)
  | inl (s : List Char)
  | raw
  | abs (a : Option Nat)
  deriving Repr, DecidableEq

/-- In-memory values of the object graph handed to `serialize`.
`ptr` is a raw/weak pointer (`T*`), holding null or the pointee's
address; `uptr` is `utl::unique_ptr`, holding its `el_` pointer;
`vec` is `utl::vector` (`none` models `el_ == nullptr`, `some es` a
non-null `el_` backing the elements `es`); `str` is `utl::string`;
`strct` a generic aggregate. -/
inductive Val where
  | sc (n : Int)
  | ptr (a : Option Nat)
  | uptr (a : Option Nat)
  | vec (elems : Option (List Val))
  | str (s : List Char)
  | strct (fields : List Val)
  deriving Repr

/-- Static C++ types driving overload resolution of `serialize` /
`deserialize`.  `uptr tid` / `vec tid` refer to the pointee / element
type through a type table (see module comment). -/
inductive Ty where
  | sc
  | ptr
  | str
  | uptr (tid : Nat)
  | vec (tid : Nat)
  | strct (fields : List Ty)
  deriving Repr

mutual

/-- Cell count of a type: the model's `sizeof`. -/
def sizeOfTy : Ty → Nat
  | .sc => 1
  | .ptr => 1
  | .str => 3
  | .uptr _ => 2
  | .vec _ => 4
  | .strct fs => sizeOfTyList fs

/-- Summed cell count of a field list (member offsets are the partial
sums, matching the address arithmetic in the generic handler). -/
def sizeOfTyList : List Ty → Nat
  | [] => 0
  | t :: ts => sizeOfTy t + sizeOfTyList ts

end

/-- Modelled from the spec: the inline ("short") capacity threshold of
`utl::string` (`utl/serialization/string.h` is not part of the sources;
the spec only states that an inline representation below a capacity
threshold exists).  The concrete value is irrelevant to every claim. -/
def shortCap : Nat := 15

/-- Modelled from the spec: `utl::string::is_short()`. -/
def isShort (s : List Char) : Bool := s.length ≤ shortCap

mutual

/-- Raw in-memory bytes of a value, as copied verbatim by
`c.write(ptr, size)`: scalar leaves keep their value, pointer slots
hold raw addresses, vector and string headers hold their pre-encode
field values.  For `utl::vector` the header layout is the four slots
`[el_, used_size_, allocated_size_, self_allocated_]`, for
`utl::string` `[ptr or inline chars, size, self_allocated_]`, for
`utl::unique_ptr` `[el_, self_allocated_]` (layouts modelled from the
spec's container-layout contract; the slot names are the ones
`serialization.h` patches through `offsetof`).  A type/value mismatch
(impossible for graphs a C++ program can hand in) yields opaque cells. -/
def rawCells : Ty → Val → List Cell
  | .sc, .sc n => [.sc n]
  | .ptr, .ptr a => [.addr a]
  | .uptr _, .uptr a => [.addr a, .flag true]
  | .vec _, .vec none => [.addr none, .num 0, .num 0, .flag true]
  | .vec _, .vec (some es) => [.raw, .num es.length, .num es.length, .flag true]
  | .str, .str s =>
    if isShort s then [.inl s, .num s.length, .flag true]
    else [.raw, .num s.length, .flag true]
  | .strct fts, .strct fvs => rawCellsFields fts fvs
  | ty, _ => List.replicate (sizeOfTy ty) .raw

/-- Raw bytes of the fields of an aggregate, concatenated in declared
member order. -/
def rawCellsFields : List Ty → List Val → List Cell
  | [], _ => []
  | _ :: _, [] => []
  | t :: ts, v :: vs => rawCells t v ++ rawCellsFields ts vs

end

/-- Association-list lookup, first match wins (used both for the
`offsets_` registry and for the heap). -/
def alookup {α : Type} : List (Nat × α) → Nat → Option α
  | [], _ => none
  | (k, v) :: rest, a => if k = a then some v else alookup rest a

/-- Object heap visible to an encode call: address to value.  Owning
and raw pointers hold addresses into it. -/
abbrev Heap := List (Nat × Val)

/-- Model of `utl::serialization_context` together with its byte
target: `buf` is the target's buffer, `offsets` the `offsets_` pointee
registry (cons-as-insert, so `std::map::operator[]` assignment is
modelled by consing the new binding in front), `pending` the
`pending_` fixup list. -/
structure SCtx where
  buf : List Cell
  offsets : List (Nat × Nat)
  pending : List (Nat × Nat)
  deriving Repr, DecidableEq

/-- Appending write `t_.write(ptr, size, alignment)`: returns the start
offset of the written region (alignment padding is not modelled). -/
def writeBytes (st : SCtx) (cells : List Cell) : Nat × SCtx :=
  (st.buf.length, { st with buf := st.buf ++ cells })

/-- Position-indexed patch write `t_.write(pos, val)`. -/
def patchAt (st : SCtx) (pos : Nat) (c : Cell) : SCtx :=
  { st with buf := st.buf.set pos c }

/-- Failure modes of the fuel-indexed encoder: `fuelOut` models
non-terminating recursion, `wildRead` a read through a pointer that
does not address a live object, `typeErr` a type/value mismatch that a
C++ caller cannot produce. -/
inductive SErr where
  | fuelOut
  | wildRead
  | typeErr
  deriving Repr, DecidableEq

/-- Work items of the recursive encoder: one value at a buffer
position, the field list of an aggregate, or the element list of a
vector payload. -/
inductive STask where
  | one (ty : Ty) (v : Val) (pos : Nat)
  | fields (tys : List Ty) (vs : List Val) (pos : Nat)
  | elems (ty : Ty) (vs : List Val) (pos : Nat)

/-- Recursive `serialize(Ctx&, T const*, offset_t)` family
(serialization.h lines 47-115), type-dispatched exactly like the C++
overload set:
* generic handler: non-scalar aggregates recurse into each field at
  `pos + member_offset`; scalar non-pointers do nothing; raw/weak
  pointers write the sentinel when null, patch the slot on a registry
  hit, and append a pending fixup on a miss;
* `utl::vector` handler: writes the raw element payload (when `el_` is
  non-null), patches the header's `el_` slot to the payload start (or
  sentinel), its `allocated_size_` slot to `used_size_` and its
  `self_allocated_` flag to false, then recurses into the elements;
* `utl::string` handler: short strings are left untouched; otherwise
  the character payload is written and the header's `ptr_` slot and
  `self_allocated_` flag are patched;
* `utl::unique_ptr` handler: writes the pointee's raw bytes (or the
  sentinel when null), patches the header, registers
  `offsets_[el_] = start` and only then recurses into the pointee. -/
def serializeT (env : List Ty) (H : Heap) :
    Nat → SCtx → STask → Except SErr SCtx
  | 0, _, _ => .error .fuelOut
  | fuel + 1, st, task =>
    match task with
    | .fields [] [] _ => .ok st
    | .fields (t :: ts) (v :: vs) pos =>
      match serializeT env H fuel st (.one t v pos) with
      | .error e => .error e
      | .ok st1 => serializeT env H fuel st1 (.fields ts vs (pos + sizeOfTy t))
    | .fields _ _ _ => .error .typeErr
    | .elems _ [] _ => .ok st
    | .elems t (v :: vs) pos =>
      match serializeT env H fuel st (.one t v pos) with
      | .error e => .error e
      | .ok st1 => serializeT env H fuel st1 (.elems t vs (pos + sizeOfTy t))
    | .one ty v pos =>
      match ty, v with
      | .sc, .sc _ => .ok st
      | .ptr, .ptr none => .ok (patchAt st pos .sentinel)
      | .ptr, .ptr (some p) =>
        match alookup st.offsets p with
        | some o => .ok (patchAt st pos (.off o))
        | none => .ok { st with pending := st.pending ++ [(p, pos)] }
      | .str, .str s =>
        if isShort s then .ok st
        else
          let ws := writeBytes st (s.map Cell.chr)
          .ok (patchAt (patchAt ws.2 pos (.off ws.1)) (pos + 2) (.flag false))
      | .vec _, .vec none =>
        .ok (patchAt (patchAt (patchAt st pos .sentinel)
              (pos + 2) (.num 0)) (pos + 3) (.flag false))
      | .vec tid, .vec (some es) =>
        match env[tid]? with
        | none => .error .typeErr
        | some et =>
          let ws := writeBytes st ((es.map (rawCells et)).flatten)
          let st2 := patchAt (patchAt (patchAt ws.2 pos (.off ws.1))
              (pos + 2) (.num es.length)) (pos + 3) (.flag false)
          serializeT env H fuel st2 (.elems et es ws.1)
      | .uptr _, .uptr none =>
        .ok (patchAt (patchAt st pos .sentinel) (pos + 1) (.flag false))
      | .uptr tid, .uptr (some p) =>
        match env[tid]? with
        | none => .error .typeErr
        | some et =>
          match alookup H p with
          | none => .error .wildRead
          | some pv =>
            let ws := writeBytes st (rawCells et pv)
            let st2 := patchAt (patchAt ws.2 pos (.off ws.1)) (pos + 1) (.flag false)
            let st3 := { st2 with offsets := (p, ws.1) :: st2.offsets }
            serializeT env H fuel st3 (.one et pv ws.1)
      | .strct fts, .strct fvs => serializeT env H fuel st (.fields fts fvs pos)
      | _, _ => .error .typeErr

/-- End-of-encode drain of the pending-fixup list (serialization.h
lines 128-135): resolved entries patch the buffer, unresolved ones are
reported as dangling-pointer diagnostics (the model collects the
`(identity, position)` pairs that the C++ prints to `std::cout`). -/
def drainGo (offsets : List (Nat × Nat)) :
    List (Nat × Nat) → List Cell → List (Nat × Nat) →
    List Cell × List (Nat × Nat)
  | [], buf, diags => (buf, diags)
  | (p, pos) :: rest, buf, diags =>
    match alookup offsets p with
    | some o => drainGo offsets rest (buf.set pos (Cell.off o)) diags
    | none => drainGo offsets rest buf (diags ++ [(p, pos)])

/-- Top-level `serialize(Target&, T&)` (serialization.h lines 117-136):
builds a fresh context, writes the root's raw bytes, recursively
visits the root, then drains the pending-fixup list.  Returns the
final buffer together with the dangling-pointer diagnostics. -/
def serializeTop (env : List Ty) (H : Heap) (fuel : Nat) (ty : Ty) (v : Val) :
    Except SErr (List Cell × List (Nat × Nat)) :=
  let st0 : SCtx := ⟨[], [], []⟩
  let ws := writeBytes st0 (rawCells ty v)
  match serializeT env H fuel ws.2 (.one ty v ws.1) with
  | .error e => .error e
  | .ok st2 => .ok (drainGo st2.offsets st2.pending st2.buf [])

/-- Model of `utl::deserialization_context` (serialization.h lines
148-165): `from_` is the numeric base address of the loaded region,
`to_` the optional upper bound (`nullptr` becomes `none`). -/
structure DCtx where
  from_ : Nat
  to_ : Option Nat
  deriving Repr, DecidableEq

/-- Failure modes of the fuel-indexed decoder.  `ptrOutOfRange` is the
fatal `verify(offset < to_ - from_, "pointer out of range")`;
`nullDeref` models a read through a null (or null-based) pointer, and
`wildRead` / `typeConfusion` model reads that leave the region or
reinterpret non-pointer bytes — all three are undefined behaviour in
the C++, surfaced as errors by the model. -/
inductive DErr where
  | fuelOut
  | nullDeref
  | wildRead
  | typeConfusion
  | ptrOutOfRange
  deriving Repr, DecidableEq

/-- Numeric reinterpretation of a stored cell as an `offset_t`
(`reinterpret_cast<offset_t>(ptr)`): patched offsets and the sentinel
read back as themselves, leftover raw pointer bytes read back as the
raw address (null raw bytes are the number 0).  Cells that never occupy
a pointer slot of a well-formed encode have no numeric reading. -/
def cellStored : Cell → Option Nat
  | .off o => some o
  | .sentinel => some sentinelV
  | .addr none => some 0
  | .addr (some a) => some a
  | _ => none

/-- `deserialization_context::deserialize` (serialization.h lines
151-162): the sentinel yields null with no range check; otherwise,
when an upper bound was supplied, offsets at or beyond `to_ - from_`
are a fatal range error; in-range (or unchecked) offsets are rebased
to `from_ + offset`. -/
def dctxDeserialize (c : DCtx) (stored : Nat) : Except DErr (Option Nat) :=
  if stored = sentinelV then .ok none
  else
    match c.to_ with
    | some t =>
      if stored < t - c.from_ then .ok (some (c.from_ + stored))
      else .error .ptrOutOfRange
    | none => .ok (some (c.from_ + stored))

/-- Address arithmetic on a possibly-null location: member offsets
added to the null pointer stay in the unmapped null page, so the model
keeps them `none` (any later read through them is the same undefined
behaviour). -/
def locAdd : Option Nat → Nat → Option Nat
  | none, _ => none
  | some p, d => some (p + d)

/-- Rebase of one pointer slot, the in-place
`*el = c.deserialize<T>(*el)` pattern: reads the slot (a read through
null or outside the buffer is undefined behaviour), reinterprets the
bytes as an offset, applies the context's null/range logic, and stores
the resulting absolute pointer back into the slot. -/
def rebaseAt (c : DCtx) (buf : List Cell) (loc : Option Nat) :
    Except DErr (List Cell × Option Nat) :=
  match loc with
  | none => .error .nullDeref
  | some p =>
    match buf[p]? with
    | none => .error .wildRead
    | some cell =>
      match cellStored cell with
      | none => .error .typeConfusion
      | some stored =>
        match dctxDeserialize c stored with
        | .error e => .error e
        | .ok r => .ok (buf.set p (Cell.abs r), r)

/-- Work items of the recursive decoder: one object of a given static
type at a location, the field list of an aggregate, or `n` vector
elements starting at a location. -/
inductive DTask where
  | one (ty : Ty) (loc : Option Nat)
  | fields (tys : List Ty) (loc : Option Nat)
  | elems (ty : Ty) (n : Nat) (loc : Option Nat)

/-- Recursive `deserialize(deserialization_context const&, T*)` family
(serialization.h lines 167-199), mirroring the C++ overload set:
* generic handler: pointer fields are rebased in place (and not
  followed), scalar non-pointers are left alone, aggregates recurse
  into each field;
* `utl::vector`: rebases `el_`, then recurses into each element, the
  count taken from the header's size slot;
* `utl::string`: short strings are untouched, otherwise `h_.ptr_` is
  rebased;
* `utl::unique_ptr`: rebases `el_` and then unconditionally recurses
  into the pointee — also when the rebased `el_` is null, in which case
  the recursion visits fields based at the null address (the generic
  handler of a scalar pointee returns before reading, every
  pointer-bearing pointee reads through the null-based address). -/
def deserializeT (env : List Ty) (c : DCtx) :
    Nat → List Cell → DTask → Except DErr (List Cell)
  | 0, _, _ => .error .fuelOut
  | fuel + 1, buf, task =>
    match task with
    | .fields [] _ => .ok buf
    | .fields (t :: ts) loc =>
      match deserializeT env c fuel buf (.one t loc) with
      | .error e => .error e
      | .ok buf1 =>
        deserializeT env c fuel buf1 (.fields ts (locAdd loc (sizeOfTy t)))
    | .elems _ 0 _ => .ok buf
    | .elems t (k + 1) loc =>
      match deserializeT env c fuel buf (.one t loc) with
      | .error e => .error e
      | .ok buf1 =>
        deserializeT env c fuel buf1 (.elems t k (locAdd loc (sizeOfTy t)))
    | .one ty loc =>
      match ty with
      | .sc => .ok buf
      | .ptr =>
        match rebaseAt c buf loc with
        | .error e => .error e
        | .ok br => .ok br.1
      | .uptr tid =>
        match env[tid]? with
        | none => .error .typeConfusion
        | some et =>
          match rebaseAt c buf loc with
          | .error e => .error e
          | .ok br => deserializeT env c fuel br.1 (.one et br.2)
      | .vec tid =>
        match env[tid]? with
        | none => .error .typeConfusion
        | some et =>
          match rebaseAt c buf loc with
          | .error e => .error e
          | .ok br =>
            match loc with
            | none => .error .nullDeref
            | some p =>
              match br.1[p + 1]? with
              | some (Cell.num n) =>
                deserializeT env c fuel br.1 (.elems et n br.2)
              | some _ => .error .typeConfusion
              | none => .error .wildRead
      | .str =>
        match loc with
        | none => .error .nullDeref
        | some p =>
          match buf[p]? with
          | none => .error .wildRead
          | some (Cell.inl _) => .ok buf
          | some _ =>
            match rebaseAt c buf loc with
            | .error e => .error e
            | .ok br => .ok br.1
      | .strct fts => deserializeT env c fuel buf (.fields fts loc)

/-- Top-level `deserialize<T>(uint8_t* from, uint8_t* to)`
(serialization.h lines 201-207): builds a context and rewrites the
region in place starting at the root.  The buffer's base address is
normalised to 0, so `to?` is `none` for an unchecked decode or
`some bound` for a checked one (`bound` = `to_ - from_`). -/
def deserializeTop (env : List Ty) (fuel : Nat) (buf : List Cell) (ty : Ty)
    (to? : Option Nat) : Except DErr (List Cell) :=
  deserializeT env ⟨0, to?⟩ fuel buf (.one ty (some 0))

-- =============================================================================
-- Model of utl/struct/for_each_member.h
-- =============================================================================

/-- Values over which the generic field-enumeration helper
`utl::for_each_field` of `for_each_member.h` is modelled: scalars,
(possibly null) pointers, aggregates. -/
inductive FVal where
  | sc (n : Int)
  | ptr (p : Option FVal)
  | strct (fs : List FVal)
  deriving Repr

/-- Visitor invocations performed by `for_each_field`: `toFn v` is a
call `fn(v)` of the caller-supplied visitor, `toOutOfScopeF v` a call
`f(v)` of the out-of-scope name `f` that the scalar branch of the
source actually names. -/
inductive FCall where
  | toFn (v : FVal)
  | toOutOfScopeF (v : FVal)
  deriving Repr

/-- Invocation trace of `utl::for_each_field(t, fn)`
(for_each_member.h lines 9-20): non-null pointers recurse into the
pointee, null pointers visit nothing, scalars invoke the out-of-scope
callable `f` (the source line reads `f(t);` although the parameter is
named `fn`), and aggregates apply `fn` to every member. -/
def for_each_field : FVal → List FCall
  | .ptr none => []
  | .ptr (some t) => for_each_field t
  | .sc n => [.toOutOfScopeF (.sc n)]
  | .strct fs => fs.map FCall.toFn

-- =============================================================================
-- Model of utl/zip.h
-- =============================================================================

/-- Error raised by `utl::zip`:
`std::runtime_error("utl::zip container size mismatch")`. -/
inductive ZErr where
  | sizeMismatch
  deriving Repr, DecidableEq

/-- Model of `utl::zip(Containers&...)` (zip.h lines 103-115).  The
`static_assert(sizeof...(Containers) > 0)` makes a first container
mandatory, so the model takes it separately from the rest.  The sizes
array is checked entry by entry against its first entry; any mismatch
throws, otherwise the zip range over the containers is returned
(containers are modelled by their element lists; element types are
irrelevant to the size check). -/
def zip (c0 : List Int) (rest : List (List Int)) :
    Except ZErr (List (List Int)) :=
  let sizes := c0.length :: rest.map List.length
  if sizes.all (fun s => s = c0.length) then .ok (c0 :: rest)
  else .error .sizeMismatch

-- =============================================================================
-- Auxiliary definitions used by the theorems
-- =============================================================================

mutual

/-- Absence of a non-null owning pointer anywhere in a value: such
values exercise every handler except the registering branch of the
`utl::unique_ptr` handler. -/
def noOwnV : Val → Bool
  | .sc _ => true
  | .ptr _ => true
  | .uptr none => true
  | .uptr (some _) => false
  | .str _ => true
  | .vec none => true
  | .vec (some es) => noOwnL es
  | .strct fs => noOwnL fs

/-- List version of `noOwnV`. -/
def noOwnL : List Val → Bool
  | [] => true
  | v :: vs => noOwnV v && noOwnL vs

end

/-- Task version of `noOwnV`. -/
def noOwnTask : STask → Bool
  | .one _ v _ => noOwnV v
  | .fields _ vs _ => noOwnL vs
  | .elems _ vs _ => noOwnL vs

/-- Everything the non-null `utl::unique_ptr` handler does before its
recursive call: write the pointee's raw bytes, patch the header's
pointer slot and ownership flag, and insert
`offsets_[origin->el_] = start` into the registry. -/
def ownPre (st : SCtx) (et : Ty) (pv : Val) (p : Nat) (pos : Nat) : SCtx :=
  let ws := writeBytes st (rawCells et pv)
  let st2 := patchAt (patchAt ws.2 pos (.off ws.1)) (pos + 1) (.flag false)
  { st2 with offsets := (p, ws.1) :: st2.offsets }

/-- Type table of the two-node owning cycle: one struct type holding
one owning pointer back to itself. -/
def cycEnv : List Ty := [.strct [.uptr 0]]

/-- Static type of the cycle nodes. -/
def cycTy : Ty := .strct [.uptr 0]

/-- Heap of the two-node owning cycle: node A at address 1 owns node B
at address 2, and B owns A. -/
def cycHeap : Heap := [(1, .strct [.uptr (some 2)]), (2, .strct [.uptr (some 1)])]

/-- Value of the cycle node owning the node at address `a`. -/
def cycVal (a : Nat) : Val := .strct [.uptr (some a)]

-- =============================================================================
-- Helper lemmas
-- =============================================================================

/-- Dangling diagnostics collected by the fixup drain are exactly the
pending entries whose identity is absent from the registry, in order,
on top of the diagnostics already accumulated. -/
theorem drainGo_snd (offsets : List (Nat × Nat)) :
    ∀ (pend : List (Nat × Nat)) (buf : List Cell) (dgs : List (Nat × Nat)),
      (drainGo offsets pend buf dgs).2 =
        dgs ++ pend.filter (fun e => (alookup offsets e.1).isNone) := by
  intro pend
  induction pend with
  | nil => intro buf dgs; simp [drainGo]
  | cons e rest ih =>
    intro buf dgs
    obtain ⟨p, pos⟩ := e
    cases hl : alookup offsets p with
    | some o => simp [drainGo, hl, ih]
    | none => simp [drainGo, hl, ih]

/-- Helper for claim C2: serializing any value containing no non-null
owning pointer leaves the pointee registry untouched — every handler
except the registering branch of the `utl::unique_ptr` handler never
writes to `offsets_`. -/
theorem serializeT_noOwn_offsets (env : List Ty) (H : Heap) :
    ∀ (fuel : Nat) (st st2 : SCtx) (task : STask),
      noOwnTask task = true →
      serializeT env H fuel st task = .ok st2 → st2.offsets = st.offsets := by
  intro fuel
  induction fuel with
  | zero =>
    intro st st2 task hno hok
    simp [serializeT] at hok
  | succ f ih =>
    intro st st2 task hno hok
    cases task with
    | fields tys vs pos =>
      cases tys with
      | nil =>
        cases vs with
        | nil => simp [serializeT] at hok; simp [← hok]
        | cons v vs => simp [serializeT] at hok
      | cons t ts =>
        cases vs with
        | nil => simp [serializeT] at hok
        | cons v vs =>
          simp only [noOwnTask, noOwnL, Bool.and_eq_true] at hno
          cases h1 : serializeT env H f st (.one t v pos) with
          | error e => simp [serializeT, h1] at hok
          | ok st1 =>
            simp only [serializeT, h1] at hok
            have e1 := ih st st1 (.one t v pos) hno.1 h1
            have e2 := ih st1 st2 (.fields ts vs (pos + sizeOfTy t)) hno.2 hok
            rw [e2, e1]
    | elems ty vs pos =>
      cases vs with
      | nil => simp [serializeT] at hok; simp [← hok]
      | cons v vs =>
        simp only [noOwnTask, noOwnL, Bool.and_eq_true] at hno
        cases h1 : serializeT env H f st (.one ty v pos) with
        | error e => simp [serializeT, h1] at hok
        | ok st1 =>
          simp only [serializeT, h1] at hok
          have e1 := ih st st1 (.one ty v pos) hno.1 h1
          have e2 := ih st1 st2 (.elems ty vs (pos + sizeOfTy ty)) hno.2 hok
          rw [e2, e1]
    | one ty v pos =>
      cases ty with
      | sc =>
        cases v with
        | sc n => simp [serializeT] at hok; simp [← hok]
        | ptr a => simp [serializeT] at hok
        | uptr a => simp [serializeT] at hok
        | vec es => simp [serializeT] at hok
        | str s => simp [serializeT] at hok
        | strct fs => simp [serializeT] at hok
      | ptr =>
        cases v with
        | ptr a =>
          cases a with
          | none => simp [serializeT] at hok; simp [← hok, patchAt]
          | some p =>
            cases hl : alookup st.offsets p with
            | some o =>
              simp [serializeT, hl] at hok
              simp [← hok, patchAt]
            | none =>
              simp [serializeT, hl] at hok
              simp [← hok]
        | sc n => simp [serializeT] at hok
        | uptr a => simp [serializeT] at hok
        | vec es => simp [serializeT] at hok
        | str s => simp [serializeT] at hok
        | strct fs => simp [serializeT] at hok
      | str =>
        cases v with
        | str s =>
          by_cases hs : isShort s
          · simp [serializeT, hs] at hok; simp [← hok]
          · simp [serializeT, hs, writeBytes, patchAt] at hok
            simp [← hok]
        | sc n => simp [serializeT] at hok
        | ptr a => simp [serializeT] at hok
        | uptr a => simp [serializeT] at hok
        | vec es => simp [serializeT] at hok
        | strct fs => simp [serializeT] at hok
      | uptr tid =>
        cases v with
        | uptr a =>
          cases a with
          | none => simp [serializeT] at hok; simp [← hok, patchAt]
          | some p => simp [noOwnTask, noOwnV] at hno
        | sc n => simp [serializeT] at hok
        | ptr a => simp [serializeT] at hok
        | vec es => simp [serializeT] at hok
        | str s => simp [serializeT] at hok
        | strct fs => simp [serializeT] at hok
      | vec tid =>
        cases v with
        | vec es =>
          cases es with
          | none => simp [serializeT] at hok; simp [← hok, patchAt]
          | some es =>
            cases he : env[tid]? with
            | none => simp [serializeT, he] at hok
            | some et =>
              simp only [serializeT, he] at hok
              have e1 := ih _ st2 (.elems et es st.buf.length) (by simpa [noOwnTask] using hno) hok
              simpa [patchAt, writeBytes] using e1
        | sc n => simp [serializeT] at hok
        | ptr a => simp [serializeT] at hok
        | uptr a => simp [serializeT] at hok
        | str s => simp [serializeT] at hok
        | strct fs => simp [serializeT] at hok
      | strct fts =>
        cases v with
        | strct fvs =>
          simp only [serializeT] at hok
          exact ih st st2 (.fields fts fvs pos) (by simpa [noOwnTask] using hno) hok
        | sc n => simp [serializeT] at hok
        | ptr a => simp [serializeT] at hok
        | uptr a => simp [serializeT] at hok
        | vec es => simp [serializeT] at hok
        | str s => simp [serializeT] at hok

/-- Helper for claim C2: the domain of the pointee registry only ever
grows — an identity present in `offsets_` is still present (with some
offset) after any amount of further serialization. -/
theorem serializeT_offsets_mono (env : List Ty) (H : Heap) :
    ∀ (fuel : Nat) (st st2 : SCtx) (task : STask),
      serializeT env H fuel st task = .ok st2 →
      ∀ (a o : Nat), alookup st.offsets a = some o →
        ∃ o2, alookup st2.offsets a = some o2 := by
  intro fuel
  induction fuel with
  | zero =>
    intro st st2 task hok
    simp [serializeT] at hok
  | succ f ih =>
    intro st st2 task hok a o ha
    cases task with
    | fields tys vs pos =>
      cases tys with
      | nil =>
        cases vs with
        | nil => simp [serializeT] at hok; exact ⟨o, by rw [← hok]; exact ha⟩
        | cons v vs => simp [serializeT] at hok
      | cons t ts =>
        cases vs with
        | nil => simp [serializeT] at hok
        | cons v vs =>
          cases h1 : serializeT env H f st (.one t v pos) with
          | error e => simp [serializeT, h1] at hok
          | ok st1 =>
            simp only [serializeT, h1] at hok
            obtain ⟨o1, ho1⟩ := ih st st1 (.one t v pos) h1 a o ha
            exact ih st1 st2 (.fields ts vs (pos + sizeOfTy t)) hok a o1 ho1
    | elems ty vs pos =>
      cases vs with
      | nil => simp [serializeT] at hok; exact ⟨o, by rw [← hok]; exact ha⟩
      | cons v vs =>
        cases h1 : serializeT env H f st (.one ty v pos) with
        | error e => simp [serializeT, h1] at hok
        | ok st1 =>
          simp only [serializeT, h1] at hok
          obtain ⟨o1, ho1⟩ := ih st st1 (.one ty v pos) h1 a o ha
          exact ih st1 st2 (.elems ty vs (pos + sizeOfTy ty)) hok a o1 ho1
    | one ty v pos =>
      cases ty with
      | sc =>
        cases v with
        | sc n => simp [serializeT] at hok; exact ⟨o, by rw [← hok]; exact ha⟩
        | ptr a2 => simp [serializeT] at hok
        | uptr a2 => simp [serializeT] at hok
        | vec es => simp [serializeT] at hok
        | str s => simp [serializeT] at hok
        | strct fs => simp [serializeT] at hok
      | ptr =>
        cases v with
        | ptr a2 =>
          cases a2 with
          | none =>
            simp [serializeT] at hok
            exact ⟨o, by rw [← hok]; simpa [patchAt] using ha⟩
          | some p =>
            cases hl : alookup st.offsets p with
            | some o3 =>
              simp [serializeT, hl] at hok
              exact ⟨o, by rw [← hok]; simpa [patchAt] using ha⟩
            | none =>
              simp [serializeT, hl] at hok
              exact ⟨o, by rw [← hok]; exact ha⟩
        | sc n => simp [serializeT] at hok
        | uptr a2 => simp [serializeT] at hok
        | vec es => simp [serializeT] at hok
        | str s => simp [serializeT] at hok
        | strct fs => simp [serializeT] at hok
      | str =>
        cases v with
        | str s =>
          by_cases hs : isShort s
          · simp [serializeT, hs] at hok
            exact ⟨o, by rw [← hok]; exact ha⟩
          · simp [serializeT, hs, writeBytes, patchAt] at hok
            exact ⟨o, by rw [← hok]; exact ha⟩
        | sc n => simp [serializeT] at hok
        | ptr a2 => simp [serializeT] at hok
        | uptr a2 => simp [serializeT] at hok
        | vec es => simp [serializeT] at hok
        | strct fs => simp [serializeT] at hok
      | uptr tid =>
        cases v with
        | uptr a2 =>
          cases a2 with
          | none =>
            simp [serializeT] at hok
            exact ⟨o, by rw [← hok]; simpa [patchAt] using ha⟩
          | some p =>
            cases he : env[tid]? with
            | none => simp [serializeT, he] at hok
            | some et =>
              cases hH : alookup H p with
              | none => simp [serializeT, he, hH] at hok
              | some pv =>
                simp only [serializeT, he, hH] at hok
                have hpres : ∃ o1,
                    alookup ((p, st.buf.length) :: st.offsets) a = some o1 := by
                  by_cases hpa : p = a
                  · exact ⟨st.buf.length, by simp [alookup, hpa]⟩
                  · exact ⟨o, by simp [alookup, hpa, ha]⟩
                obtain ⟨o1, ho1⟩ := hpres
                refine ih _ _ _ hok a o1 ?_
                simpa [patchAt, writeBytes] using ho1
        | sc n => simp [serializeT] at hok
        | ptr a2 => simp [serializeT] at hok
        | vec es => simp [serializeT] at hok
        | str s => simp [serializeT] at hok
        | strct fs => simp [serializeT] at hok
      | vec tid =>
        cases v with
        | vec es =>
          cases es with
          | none =>
            simp [serializeT] at hok
            exact ⟨o, by rw [← hok]; simpa [patchAt] using ha⟩
          | some es =>
            cases he : env[tid]? with
            | none => simp [serializeT, he] at hok
            | some et =>
              simp only [serializeT, he] at hok
              refine ih _ _ _ hok a o ?_
              simpa [patchAt, writeBytes] using ha
        | sc n => simp [serializeT] at hok
        | ptr a2 => simp [serializeT] at hok
        | uptr a2 => simp [serializeT] at hok
        | str s => simp [serializeT] at hok
        | strct fs => simp [serializeT] at hok
      | strct fts =>
        cases v with
        | strct fvs =>
          simp only [serializeT] at hok
          exact ih st st2 (.fields fts fvs pos) hok a o ha
        | sc n => simp [serializeT] at hok
        | ptr a2 => simp [serializeT] at hok
        | uptr a2 => simp [serializeT] at hok
        | vec es => simp [serializeT] at hok
        | str s => simp [serializeT] at hok

/-- Helper for claim C2: the non-null `utl::unique_ptr` handler factors
as `ownPre` (write pointee bytes, patch header, register
`offsets_[el_] = start`) followed by the recursive visit of the
pointee, and the registry the recursion starts from already contains
the pointee's entry. -/
theorem serializeT_own_register_first (env : List Ty) (H : Heap)
    (fuel : Nat) (st : SCtx) (tid : Nat) (et : Ty) (p : Nat) (pv : Val) (pos : Nat)
    (he : env[tid]? = some et) (hH : alookup H p = some pv) :
    serializeT env H (fuel + 1) st (.one (.uptr tid) (.uptr (some p)) pos) =
      serializeT env H fuel (ownPre st et pv p pos) (.one et pv st.buf.length) ∧
    alookup (ownPre st et pv p pos).offsets p = some st.buf.length := by
  constructor
  · simp [serializeT, he, hH, ownPre, writeBytes, patchAt]
  · simp [ownPre, alookup, writeBytes, patchAt]

-- =============================================================================
-- Claims
-- =============================================================================

/-- Claim C1 (failing input): in the graph consisting of a root struct
whose single field is a null `utl::unique_ptr` with a pointer-bearing
pointee type, encoding succeeds and writes the sentinel, but
deserializing the produced buffer does not return the graph: the
`utl::unique_ptr` deserialize overload recurses into the rebased null
pointee unconditionally, and the pointee's pointer field is then read
through the null address — undefined behaviour in the C++, an error in
the model — so the round trip fails. -/
theorem c1_roundtrip_null_owner_crash :
    serializeTop [.ptr] [] 10 (.strct [.uptr 0]) (.strct [.uptr none]) =
      .ok ([.sentinel, .flag false], []) ∧
    deserializeTop [.ptr] 10 [.sentinel, .flag false] (.strct [.uptr 0])
      (some 2) = .error .nullDeref :=
  ⟨rfl, rfl⟩

/-- Claim C2: the pointee registry is populated only by the
owning-pointer handler (first conjunct: no-owning-pointer values leave
it untouched), its entries persist (second conjunct: domain grows
monotonically), and for every non-null owning pointer the identity →
offset entry is inserted before the recursion into the pointee's
fields begins (third conjunct) — so the entry is present during the
entire recursive visit. -/
theorem c2_registry_owner_only :
    (∀ (env : List Ty) (H : Heap) (fuel : Nat) (st st2 : SCtx) (task : STask),
        noOwnTask task = true → serializeT env H fuel st task = .ok st2 →
        st2.offsets = st.offsets) ∧
    (∀ (env : List Ty) (H : Heap) (fuel : Nat) (st st2 : SCtx) (task : STask),
        serializeT env H fuel st task = .ok st2 →
        ∀ (a o : Nat), alookup st.offsets a = some o →
          ∃ o2, alookup st2.offsets a = some o2) ∧
    (∀ (env : List Ty) (H : Heap) (fuel : Nat) (st : SCtx) (tid : Nat)
        (et : Ty) (p : Nat) (pv : Val) (pos : Nat),
        env[tid]? = some et → alookup H p = some pv →
        serializeT env H (fuel + 1) st (.one (.uptr tid) (.uptr (some p)) pos) =
          serializeT env H fuel (ownPre st et pv p pos) (.one et pv st.buf.length) ∧
        alookup (ownPre st et pv p pos).offsets p = some st.buf.length) :=
  ⟨fun env H => serializeT_noOwn_offsets env H,
   fun env H => serializeT_offsets_mono env H,
   fun env H fuel st tid et p pv pos he hH =>
     serializeT_own_register_first env H fuel st tid et p pv pos he hH⟩

/-- Witness for C2 at concrete inputs: a scalar visit leaves a
registry untouched and preserves an entry, and the owning-pointer
handler on a pointee at address 50 registers offset 2 before
recursing. -/
theorem c2_registry_owner_only_witness :
    ((⟨[Cell.sc 3], [], []⟩ : SCtx).offsets = (⟨[Cell.sc 3], [], []⟩ : SCtx).offsets) ∧
    (∃ o2, alookup (⟨[Cell.sc 3], [(5, 9)], []⟩ : SCtx).offsets 5 = some o2) ∧
    (serializeT [.sc] [(50, Val.sc 7)] 4 ⟨[.addr (some 50), .flag true], [], []⟩
        (.one (.uptr 0) (.uptr (some 50)) 0) =
      serializeT [.sc] [(50, Val.sc 7)] 3
        (ownPre ⟨[.addr (some 50), .flag true], [], []⟩ .sc (.sc 7) 50 0)
        (.one .sc (.sc 7) 2) ∧
      alookup (ownPre ⟨[.addr (some 50), .flag true], [], []⟩ .sc (.sc 7) 50 0).offsets 50 =
        some 2) :=
  ⟨c2_registry_owner_only.1 [] [] 1 ⟨[Cell.sc 3], [], []⟩ ⟨[Cell.sc 3], [], []⟩
      (.one .sc (.sc 3) 0) rfl rfl,
   c2_registry_owner_only.2.1 [] [] 1 ⟨[Cell.sc 3], [(5, 9)], []⟩
      ⟨[Cell.sc 3], [(5, 9)], []⟩ (.one .sc (.sc 3) 0) rfl 5 9 rfl,
   c2_registry_owner_only.2.2 [.sc] [(50, Val.sc 7)] 3
      ⟨[.addr (some 50), .flag true], [], []⟩ 0 .sc 50 (.sc 7) 0 rfl rfl⟩

/-- Claim C5 (failing input plus the surviving part): every null/empty
field encodes to its sentinel/no-payload form (first conjunct), and
for graphs without a null owning pointer to a pointer-bearing pointee
the null fields also decode back to null/empty (third conjunct); but a
null `utl::unique_ptr` whose pointee type is `utl::vector` makes the
decode pass read through the null pointee, so that graph does not
decode back to null (second conjunct). -/
theorem c5_null_invariance_crash :
    serializeTop [.vec 1, .sc] [] 20 (.strct [.uptr 0, .ptr, .vec 1, .str])
        (.strct [.uptr none, .ptr none, .vec none, .str []]) =
      .ok ([.sentinel, .flag false, .sentinel, .sentinel, .num 0, .num 0,
            .flag false, .inl [], .num 0, .flag true], []) ∧
    deserializeTop [.vec 1, .sc] 20
        [.sentinel, .flag false, .sentinel, .sentinel, .num 0, .num 0,
         .flag false, .inl [], .num 0, .flag true]
        (.strct [.uptr 0, .ptr, .vec 1, .str]) (some 10) =
      .error .nullDeref ∧
    (serializeTop [.vec 1, .sc] [] 20 (.strct [.ptr, .vec 1, .str])
        (.strct [.ptr none, .vec none, .str []]) =
      .ok ([.sentinel, .sentinel, .num 0, .num 0, .flag false,
            .inl [], .num 0, .flag true], []) ∧
    deserializeTop [.vec 1, .sc] 20
        [.sentinel, .sentinel, .num 0, .num 0, .flag false,
         .inl [], .num 0, .flag true]
        (.strct [.ptr, .vec 1, .str]) (some 8) =
      .ok [.abs none, .abs none, .num 0, .num 0, .flag false,
           .inl [], .num 0, .flag true]) :=
  ⟨rfl, rfl, rfl, rfl⟩

/-- Helper for claim C3: for every fuel, visiting a cycle node of the
two-node owning cycle — as a struct, as its field list, or as its
owning-pointer field — exhausts the fuel.  The owning-pointer handler
never consults the registry before writing, so each visit of a node
re-writes the other node and recurses into it, forever. -/
theorem cyc_aux : ∀ fuel : Nat,
    (∀ (st : SCtx) (pos a : Nat), a = 1 ∨ a = 2 →
        serializeT cycEnv cycHeap fuel st (.one cycTy (cycVal a) pos) =
          .error .fuelOut) ∧
    (∀ (st : SCtx) (pos a : Nat), a = 1 ∨ a = 2 →
        serializeT cycEnv cycHeap fuel st
          (.fields [.uptr 0] [.uptr (some a)] pos) = .error .fuelOut) ∧
    (∀ (st : SCtx) (pos a : Nat), a = 1 ∨ a = 2 →
        serializeT cycEnv cycHeap fuel st
          (.one (.uptr 0) (.uptr (some a)) pos) = .error .fuelOut) := by
  intro fuel
  induction fuel with
  | zero =>
    exact ⟨fun st pos a _ => rfl, fun st pos a _ => rfl, fun st pos a _ => rfl⟩
  | succ f ih =>
    refine ⟨?_, ?_, ?_⟩
    · intro st pos a ha
      show serializeT cycEnv cycHeap f st
          (.fields [.uptr 0] [.uptr (some a)] pos) = .error .fuelOut
      exact ih.2.1 st pos a ha
    · intro st pos a ha
      have h1 := ih.2.2 st pos a ha
      show (match serializeT cycEnv cycHeap f st
              (.one (.uptr 0) (.uptr (some a)) pos) with
            | Except.error e => Except.error e
            | Except.ok st1 => serializeT cycEnv cycHeap f st1
                (.fields [] [] (pos + sizeOfTy (.uptr 0)))) =
          Except.error SErr.fuelOut
      rw [h1]
    · intro st pos a ha
      rcases ha with rfl | rfl
      · exact ih.1 _ _ 2 (Or.inr rfl)
      · exact ih.1 _ _ 1 (Or.inl rfl)

/-- Claim C3 counterexample: encoding node A of the two-node owning
cycle (A at address 1 owning B at address 2, B owning A) never
completes — there is no recursion-depth bound under which the encode
returns a buffer, so "encoding A terminates" is false and no buffer
exists for the decode half of the claim. -/
theorem c3_cycle_counterexample :
    ¬ ∃ (fuel : Nat) (res : List Cell × List (Nat × Nat)),
        serializeTop cycEnv cycHeap fuel cycTy (cycVal 2) = .ok res := by
  rintro ⟨fuel, res, h⟩
  have h1 := (cyc_aux fuel).1 ⟨rawCells cycTy (cycVal 2), [], []⟩ 0 2 (Or.inr rfl)
  have hrw : serializeTop cycEnv cycHeap fuel cycTy (cycVal 2) =
      match serializeT cycEnv cycHeap fuel ⟨rawCells cycTy (cycVal 2), [], []⟩
          (.one cycTy (cycVal 2) 0) with
      | Except.error e => Except.error e
      | Except.ok st2 =>
        Except.ok (drainGo st2.offsets st2.pending st2.buf []) := rfl
  rw [hrw, h1] at h
  cases h

/-- Claim C3 amended: for two nodes A and B where each holds an owning
pointer to the other, encoding A does not terminate — for every
recursion-depth bound the encoder runs out of it, because the
owning-pointer handler writes its pointee unconditionally (it never
checks the registry) and so re-serializes the two nodes forever. -/
theorem c3_cycle_no_termination :
    ∀ fuel : Nat,
      serializeTop cycEnv cycHeap fuel cycTy (cycVal 2) = .error .fuelOut := by
  intro fuel
  have h1 := (cyc_aux fuel).1 ⟨rawCells cycTy (cycVal 2), [], []⟩ 0 2 (Or.inr rfl)
  have hrw : serializeTop cycEnv cycHeap fuel cycTy (cycVal 2) =
      match serializeT cycEnv cycHeap fuel ⟨rawCells cycTy (cycVal 2), [], []⟩
          (.one cycTy (cycVal 2) 0) with
      | Except.error e => Except.error e
      | Except.ok st2 =>
        Except.ok (drainGo st2.offsets st2.pending st2.buf []) := rfl
  rw [hrw, h1]

/-- Claim C4 counterexample: in the graph whose root has two owning
pointer fields both referencing address 50, the first field's slot is
patched to offset 4 and the second to offset 5 — not to the same
offset: the owning-pointer handler never looks the address up in the
registry, so it writes a second copy of the pointee. -/
theorem c4_dedup_counterexample :
    serializeTop [.sc] [(50, .sc 7)] 10 (.strct [.uptr 0, .uptr 0])
        (.strct [.uptr (some 50), .uptr (some 50)]) =
      .ok ([.off 4, .flag false, .off 5, .flag false, .sc 7, .sc 7], []) ∧
    Cell.off 4 ≠ Cell.off 5 :=
  ⟨rfl, by decide⟩

/-- Claim C4 amended: two distinct owning-pointer fields referencing
the same address at encode time are each written as a separate copy of
the pointee and patched to two distinct offsets (4 and 5 in the
two-field root; only the weak-pointer handler deduplicates through the
registry).  Holds for every pointee value, every pointee address and
every sufficient recursion bound. -/
theorem c4_dedup_amended :
    ∀ (n : Int) (a : Nat) (f : Nat),
      serializeTop [.sc] [(a, .sc n)] (f + 5) (.strct [.uptr 0, .uptr 0])
          (.strct [.uptr (some a), .uptr (some a)]) =
        .ok ([.off 4, .flag false, .off 5, .flag false, .sc n, .sc n], []) ∧
      Cell.off 4 ≠ Cell.off 5 := by
  intro n a f
  refine ⟨?_, by decide⟩
  simp [serializeTop, serializeT, writeBytes, patchAt, rawCells, rawCellsFields,
    sizeOfTy, sizeOfTyList, alookup, drainGo]

/-- Claim C6: the raw/weak pointer handler writes the sentinel
immediately for a null field; on a registry hit it patches the slot
with the registered offset now; on a miss it only appends the pending
fixup `(identity, slot position)`, leaving the buffer — hence the
slot's pre-encode raw bytes — untouched during the main pass. -/
theorem c6_weak_ptr_handler :
    (∀ (env : List Ty) (H : Heap) (f : Nat) (st : SCtx) (pos : Nat),
        serializeT env H (f + 1) st (.one .ptr (.ptr none) pos) =
          .ok (patchAt st pos .sentinel)) ∧
    (∀ (env : List Ty) (H : Heap) (f : Nat) (st : SCtx) (p pos o : Nat),
        alookup st.offsets p = some o →
        serializeT env H (f + 1) st (.one .ptr (.ptr (some p)) pos) =
          .ok (patchAt st pos (.off o))) ∧
    (∀ (env : List Ty) (H : Heap) (f : Nat) (st : SCtx) (p pos : Nat),
        alookup st.offsets p = none →
        serializeT env H (f + 1) st (.one .ptr (.ptr (some p)) pos) =
          .ok { st with pending := st.pending ++ [(p, pos)] }) := by
  refine ⟨fun env H f st pos => rfl, fun env H f st p pos o h => ?_,
    fun env H f st p pos h => ?_⟩
  · simp [serializeT, h]
  · simp [serializeT, h]

/-- Witness for C6 at concrete inputs: a registry hit patches the slot
with offset 0, a registry miss appends the pending entry. -/
theorem c6_weak_ptr_handler_witness :
    alookup (⟨[.addr (some 4)], [(4, 0)], []⟩ : SCtx).offsets 4 = some 0 ∧
    serializeT [] [] 1 ⟨[.addr (some 4)], [(4, 0)], []⟩
        (.one .ptr (.ptr (some 4)) 0) =
      .ok (patchAt ⟨[.addr (some 4)], [(4, 0)], []⟩ 0 (.off 0)) ∧
    alookup (⟨[.addr (some 9)], [], []⟩ : SCtx).offsets 9 = none ∧
    serializeT [] [] 1 ⟨[.addr (some 9)], [], []⟩
        (.one .ptr (.ptr (some 9)) 0) =
      .ok { (⟨[.addr (some 9)], [], []⟩ : SCtx) with
            pending := ([] : List (Nat × Nat)) ++ [(9, 0)] } :=
  ⟨rfl, c6_weak_ptr_handler.2.1 [] [] 0 _ 4 0 0 rfl,
   rfl, c6_weak_ptr_handler.2.2 [] [] 0 _ 9 0 rfl⟩

/-- Claim C7: the end-of-encode drain emits exactly one diagnostic per
unresolved pending entry, carrying that entry's identity and buffer
position (first conjunct); a completed main pass always yields a
buffer — unresolved entries are non-fatal (second conjunct); and on
the spec's literal Root/Child scenario the encode returns a buffer
with exactly one diagnostic naming Root's identity 100 and the
weak-back slot position 2, whose cell still holds Root's raw
pre-encode address (third conjunct). -/
theorem c7_dangling_non_fatal :
    (∀ st : SCtx,
        (drainGo st.offsets st.pending st.buf []).2 =
          st.pending.filter (fun e => (alookup st.offsets e.1).isNone)) ∧
    (∀ (env : List Ty) (H : Heap) (fuel : Nat) (ty : Ty) (v : Val) (st2 : SCtx),
        serializeT env H fuel ⟨rawCells ty v, [], []⟩ (.one ty v 0) = .ok st2 →
        serializeTop env H fuel ty v =
          .ok (drainGo st2.offsets st2.pending st2.buf [])) ∧
    (serializeTop [.strct [.ptr]] [(200, .strct [.ptr (some 100)])] 10
        (.strct [.uptr 0]) (.strct [.uptr (some 200)]) =
      .ok ([.off 2, .flag false, .addr (some 100)], [(100, 2)]) ∧
      [Cell.off 2, Cell.flag false, Cell.addr (some 100)][2]? =
        some (.addr (some 100))) := by
  refine ⟨fun st => drainGo_snd st.offsets st.pending st.buf [], ?_, rfl, rfl⟩
  intro env H fuel ty v st2 h
  have hrw : serializeTop env H fuel ty v =
      match serializeT env H fuel ⟨rawCells ty v, [], []⟩ (.one ty v 0) with
      | .error e => .error e
      | .ok st2 => .ok (drainGo st2.offsets st2.pending st2.buf []) := rfl
  rw [hrw, h]

/-- Witness for C7: the completed main pass of the null-owner graph
feeds the drain and the top-level encode returns its buffer. -/
theorem c7_dangling_non_fatal_witness :
    serializeT [.ptr] [] 10
        ⟨rawCells (.strct [.uptr 0]) (.strct [.uptr none]), [], []⟩
        (.one (.strct [.uptr 0]) (.strct [.uptr none]) 0) =
      .ok ⟨[.sentinel, .flag false], [], []⟩ ∧
    serializeTop [.ptr] [] 10 (.strct [.uptr 0]) (.strct [.uptr none]) =
      .ok (drainGo ([] : List (Nat × Nat)) ([] : List (Nat × Nat))
        [.sentinel, .flag false] ([] : List (Nat × Nat))) :=
  ⟨rfl, c7_dangling_non_fatal.2.1 [.ptr] [] 10 (.strct [.uptr 0])
    (.strct [.uptr none]) ⟨[.sentinel, .flag false], [], []⟩ rfl⟩

/-- Claim C8: during decode of a pointer slot, the sentinel yields
null with no range check at all (any bound, any base); with an upper
bound supplied, offsets strictly below `to_ - from_` pass and are
rebased to `from_ + offset`, while offsets at or beyond it are the
fatal range error; with no bound there is no check and `from_ +
offset` is stored. -/
theorem c8_decode_ptr_null_and_range :
    (∀ (fr : Nat) (to? : Option Nat),
        dctxDeserialize ⟨fr, to?⟩ sentinelV = .ok none) ∧
    (∀ (fr t stored : Nat), stored ≠ sentinelV → stored < t - fr →
        dctxDeserialize ⟨fr, some t⟩ stored = .ok (some (fr + stored))) ∧
    (∀ (fr t stored : Nat), stored ≠ sentinelV → t - fr ≤ stored →
        dctxDeserialize ⟨fr, some t⟩ stored = .error .ptrOutOfRange) ∧
    (∀ (fr stored : Nat), stored ≠ sentinelV →
        dctxDeserialize ⟨fr, none⟩ stored = .ok (some (fr + stored))) := by
  refine ⟨?_, ?_, ?_, ?_⟩
  · intro fr to?
    cases to? <;> simp [dctxDeserialize]
  · intro fr t stored hne hlt
    simp [dctxDeserialize, hne, hlt]
  · intro fr t stored hne hge
    simp [dctxDeserialize, hne, Nat.not_lt.mpr hge]
  · intro fr stored hne
    simp [dctxDeserialize, hne]

/-- Witness for C8 at concrete inputs: base 0, bound 4; the sentinel
decodes to null even under the bound, offset 2 passes, offset 7 is the
fatal range error, and without a bound offset 7 is rebased
unchecked. -/
theorem c8_decode_ptr_null_and_range_witness :
    dctxDeserialize ⟨0, some 4⟩ sentinelV = .ok none ∧
    dctxDeserialize ⟨0, some 4⟩ 2 = .ok (some 2) ∧
    dctxDeserialize ⟨0, some 4⟩ 7 = .error .ptrOutOfRange ∧
    dctxDeserialize ⟨0, none⟩ 7 = .ok (some 7) :=
  ⟨c8_decode_ptr_null_and_range.1 0 (some 4),
   c8_decode_ptr_null_and_range.2.1 0 4 2 (by decide) (by decide),
   c8_decode_ptr_null_and_range.2.2.1 0 4 7 (by decide) (by decide),
   c8_decode_ptr_null_and_range.2.2.2 0 7 (by decide)⟩

/-- Claim C9: the generic field-enumeration helper
`utl::for_each_field`, applied to a scalar value, invokes the
out-of-scope callable `f` and never the caller-supplied visitor
`fn`. -/
theorem c9_for_each_field_scalar :
    ∀ n : Int, for_each_field (.sc n) = [.toOutOfScopeF (.sc n)] ∧
      ∀ v : FVal, FCall.toFn v ∉ for_each_field (.sc n) := by
  intro n
  refine ⟨rfl, ?_⟩
  intro v h
  simp [for_each_field] at h

/-- Claim C10: for a non-empty collection of containers, `utl::zip`
throws exactly when some container's size differs from the first
container's size, and returns the zip range without throwing when all
sizes agree. -/
theorem c10_zip_throw_iff :
    ∀ (c0 : List Int) (rest : List (List Int)),
      (zip c0 rest = .error .sizeMismatch ↔
        ∃ c ∈ rest, c.length ≠ c0.length) ∧
      ((∀ c ∈ rest, c.length = c0.length) → zip c0 rest = .ok (c0 :: rest)) := by
  intro c0 rest
  have hcond : ((c0.length :: rest.map List.length).all
      fun s => s = c0.length) = true ↔ ∀ c ∈ rest, c.length = c0.length := by
    simp [List.all_eq_true]
  by_cases hall : ∀ c ∈ rest, c.length = c0.length
  · have hz : zip c0 rest = .ok (c0 :: rest) := by
      simp only [zip]
      rw [if_pos (hcond.mpr hall)]
    refine ⟨⟨fun h => ?_, fun h => ?_⟩, fun _ => hz⟩
    · rw [hz] at h; cases h
    · obtain ⟨c, hc, hne⟩ := h
      exact absurd (hall c hc) hne
  · have hz : zip c0 rest = .error .sizeMismatch := by
      simp only [zip]
      rw [if_neg (fun h => hall (hcond.mp h))]
    refine ⟨⟨fun _ => ?_, fun _ => hz⟩, fun h => absurd h hall⟩
    push_neg at hall
    obtain ⟨c, hc, hne⟩ := hall
    exact ⟨c, hc, hne⟩

/-- Witness for C10: equal sizes return the range, a short second
container throws. -/
theorem c10_zip_throw_iff_witness :
    zip [1, 2] [[3, 4]] = .ok [[1, 2], [3, 4]] ∧
    zip [1, 2] [[3]] = .error .sizeMismatch :=
  ⟨(c10_zip_throw_iff [1, 2] [[3, 4]]).2 (by decide),
   (c10_zip_throw_iff [1, 2] [[3]]).1.mpr ⟨[3], by decide, by decide⟩⟩


/-- Encode/decode round trip on a representative well-formed graph: a
root owning a child struct (scalar plus a long string), holding a weak
pointer to that same owned child, a two-element vector of structs and
a short string.  The encode resolves the weak pointer through the
registry (both pointer slots hold offset 10) and the bounded decode
rebases every slot in place without error. -/
theorem encode_decode_example :
    serializeTop [.strct [.sc, .str], .strct [.sc]]
        [(77, .strct [.sc 5, .str ['a', 'b', 'c', 'd', 'e', 'f', 'g', 'h',
          'i', 'j', 'k', 'l', 'm', 'n', 'o', 'p', 'q']])] 30
        (.strct [.uptr 0, .ptr, .vec 1, .str])
        (.strct [.uptr (some 77), .ptr (some 77),
          .vec (some [.strct [.sc 1], .strct [.sc 2]]), .str ['h', 'i']]) =
      .ok ([.off 10, .flag false, .off 10, .off 31, .num 2, .num 2,
            .flag false, .inl ['h', 'i'], .num 2, .flag true, .sc 5,
            .off 14, .num 17, .flag false, .chr 'a', .chr 'b', .chr 'c',
            .chr 'd', .chr 'e', .chr 'f', .chr 'g', .chr 'h', .chr 'i',
            .chr 'j', .chr 'k', .chr 'l', .chr 'm', .chr 'n', .chr 'o',
            .chr 'p', .chr 'q', .sc 1, .sc 2], []) ∧
    deserializeTop [.strct [.sc, .str], .strct [.sc]] 30
        [.off 10, .flag false, .off 10, .off 31, .num 2, .num 2,
         .flag false, .inl ['h', 'i'], .num 2, .flag true, .sc 5,
         .off 14, .num 17, .flag false, .chr 'a', .chr 'b', .chr 'c',
         .chr 'd', .chr 'e', .chr 'f', .chr 'g', .chr 'h', .chr 'i',
         .chr 'j', .chr 'k', .chr 'l', .chr 'm', .chr 'n', .chr 'o',
         .chr 'p', .chr 'q', .sc 1, .sc 2]
        (.strct [.uptr 0, .ptr, .vec 1, .str]) (some 33) =
      .ok [.abs (some 10), .flag false, .abs (some 10), .abs (some 31),
           .num 2, .num 2, .flag false, .inl ['h', 'i'], .num 2, .flag true,
           .sc 5, .abs (some 14), .num 17, .flag false, .chr 'a', .chr 'b',
           .chr 'c', .chr 'd', .chr 'e', .chr 'f', .chr 'g', .chr 'h',
           .chr 'i', .chr 'j', .chr 'k', .chr 'l', .chr 'm', .chr 'n',
           .chr 'o', .chr 'p', .chr 'q', .sc 1, .sc 2] :=
  ⟨rfl, rfl⟩

end UtlSer
